import Mathlib

/-!
Shallow embedding of the e-commerce backend (controllers/cartController.js,
controllers/paymentController.js, controllers/authController.js,
controllers/productController.js, routes/authRoutes.js middleware).

The document store is modelled as explicit state: a list of products, the
single per-user cart (a list of cart lines), and the user collection.
Mongo object ids become `Nat`; JS numbers carrying quantities and stock
become `Int` (they are integers in every code path used here); prices
become `ℚ`.  External collaborators (bcrypt, jwt, Stripe, express-rate-limit)
are out of scope per the spec; bcrypt hashing is modelled as an injective
tagging function, and the Stripe session-creation call is modelled as a
boolean flag recording that the call was reached.

JS truthiness on request fields is modelled explicitly: a missing field is
`none`, and a present field is falsy exactly when it is the empty string
(for strings) or zero (for numbers).
-/

/-- A catalog product (models/Product.js document, fields used by the handlers). -/
structure Product where
  pid : Nat
  name : String
  description : String
  price : ℚ
  category : String
  image : String
  stock : Int
deriving DecidableEq, Repr

/-- One cart line (`cart.items[i]`): Mongo subdocument id, product reference, quantity. -/
structure CartLine where
  lineId : Nat
  productId : Nat
  quantity : Int
deriving DecidableEq, Repr

/-- A user document (models/User.js, fields used by the auth handlers). -/
structure User where
  username : String
  password : String
  role : String
deriving DecidableEq, Repr

/-- The database state seen by the cart/checkout handlers: the product
collection, the requesting user's cart (`none` = no cart document), and the
counter Mongo uses to assign fresh subdocument ids. -/
structure State where
  products : List Product
  cart : Option (List CartLine)
  nextLineId : Nat
deriving DecidableEq, Repr

/-- `Product.findById`: first product with the given id. -/
def findProduct (ps : List Product) (pid : Nat) : Option Product :=
  ps.find? (fun p => p.pid = pid)

/-- Quantity of the first cart line for a product, if any. -/
def lineQty (st : State) (pid : Nat) : Option Int :=
  ((st.cart.getD []).find? (fun it => it.productId = pid)).map (fun it => it.quantity)

/-- The first cart line with the given subdocument id (`cart.items.id(id)`). -/
def cartLineById (st : State) (lid : Nat) : Option CartLine :=
  (st.cart.getD []).find? (fun it => it.lineId = lid)

/-- `cart.items[existingItemIndex].quantity = newQuantity`: overwrite the
quantity of the first line matching the product id (the index comes from
`findIndex`, which returns the first match). -/
def setLineQty : List CartLine → Nat → Int → List CartLine
  | [], _, _ => []
  | it :: rest, pid, q =>
    if it.productId = pid then { it with quantity := q } :: rest
    else it :: setLineQty rest pid q

/-- `item.quantity = quantity` on the line found by `cart.items.id(id)`:
overwrite the quantity of the first line matching the subdocument id. -/
def setLineQtyById : List CartLine → Nat → Int → List CartLine
  | [], _, _ => []
  | it :: rest, lid, q =>
    if it.lineId = lid then { it with quantity := q } :: rest
    else it :: setLineQtyById rest lid q

/-- cartController.addToCart.  Returns the HTTP status and the resulting
state; every failure path leaves the state as received.  The `cartId`
request field only selects which cart document is loaded and the model has
a single cart per user, so it is not a parameter here. -/
def addToCart (st : State) (productId : Nat) (quantity : Int) : Nat × State :=
  if quantity ≤ 0 then (400, st)
  else
    match findProduct st.products productId with
    | none => (404, st)
    | some product =>
      if product.stock < quantity then (400, st)
      else
        let items := st.cart.getD []
        match items.find? (fun it => it.productId = productId) with
        | some it =>
          let newQuantity := it.quantity + quantity
          if product.stock < newQuantity then (400, st)
          else (200, { st with cart := some (setLineQty items productId newQuantity) })
        | none =>
          (200, { st with
                    cart := some (items ++ [⟨st.nextLineId, productId, quantity⟩]),
                    nextLineId := st.nextLineId + 1 })

/-- cartController.updateCartItem: quantity must be truthy and ≥ 1; the cart
containing the line must exist; the line's product must still exist; the new
quantity must not exceed current stock. -/
def updateCartItem (st : State) (lineId : Nat) (quantity : Int) : Nat × State :=
  if quantity < 1 then (400, st)
  else
    match st.cart with
    | none => (404, st)
    | some items =>
      match items.find? (fun it => it.lineId = lineId) with
      | none => (404, st)
      | some it =>
        match findProduct st.products it.productId with
        | none => (404, st)
        | some product =>
          if product.stock < quantity then (400, st)
          else (200, { st with cart := some (setLineQtyById items lineId quantity) })

/-- cartController.getCart: join lines with products, drop lines whose
product is gone, and persist the shrunk list when anything was dropped.
Returns the new state and the list of valid (returned) lines. -/
def getCart (st : State) : State × List CartLine :=
  match st.cart with
  | none => (st, [])
  | some items =>
    let validItems := items.filter (fun it => (findProduct st.products it.productId).isSome)
    if validItems.length ≠ items.length then
      ({ st with cart := some validItems }, validItems)
    else (st, validItems)

/-- Price of a line's product under a product list (0 if the product is gone;
only used on lines whose product exists). -/
def linePrice (ps : List Product) (it : CartLine) : ℚ :=
  match findProduct ps it.productId with
  | some p => p.price
  | none => 0

/-- `Math.round` on an exact rational: round half toward +∞, as JS does. -/
def jsRound (q : ℚ) : ℤ := ⌊q + 1/2⌋

/-- `Math.round(totalPrice * 100) / 100`. -/
def round2 (q : ℚ) : ℚ := (jsRound (q * 100) : ℚ) / 100

/-- Result of cartController.getCartSummary. -/
structure Summary where
  totalItems : Int
  totalPrice : ℚ
  itemCount : Nat
deriving DecidableEq, Repr

/-- cartController.getCartSummary: totals over lines whose product exists. -/
def getCartSummary (st : State) : Summary :=
  match st.cart with
  | none => ⟨0, 0, 0⟩
  | some items =>
    let validItems := items.filter (fun it => (findProduct st.products it.productId).isSome)
    let totalItems := validItems.foldl (fun sum it => sum + it.quantity) 0
    let totalPrice := validItems.foldl (fun sum it => sum + linePrice st.products it * it.quantity) 0
    ⟨totalItems, round2 totalPrice, validItems.length⟩

/- ------------------------------------------------------------------ -/
/- Auth service (controllers/authController.js, routes/authRoutes.js) -/
/- ------------------------------------------------------------------ -/

/-- bcrypt.hashSync stand-in (the hashing library is an external
collaborator; only "same input, same hash / different input, different
hash" matters to the handlers). -/
def bhash (s : String) : String := "bcrypt$" ++ s

/-- bcrypt.compareSync stand-in. -/
def bcompare (plain hashed : String) : Bool := bhash plain = hashed

/-- validator.isAlphanumeric on ASCII letters and digits. -/
def isAlnum (s : String) : Bool := s.toList.all (fun c => c.isAlpha || c.isDigit)

/-- securityMiddleware.validateInput.validateAuth: username and password
required, username 3–20 alphanumeric, password 6–100 characters. -/
def validateAuth (username password : String) : Bool :=
  username ≠ "" && password ≠ "" &&
  (3 ≤ username.length && username.length ≤ 20) && isAlnum username &&
  (6 ≤ password.length && password.length ≤ 100)

/-- authController.register behind the /register route middleware
(registerLimiter is an external rate limiter; validateAuth gates input; no
authentication middleware runs on this route).  `role` is taken straight
from the request body: `role: role || "user"`. -/
def registerEndpoint (users : List User) (username password : String)
    (role : Option String) : Nat × List User :=
  if !validateAuth username password then (400, users)
  else if (users.find? (fun u => u.username = username)).isSome then (400, users)
  else
    let assignedRole := match role with
      | some r => if r = "" then "user" else r
      | none => "user"
    (200, users ++ [⟨username, bhash password, assignedRole⟩])

/-- authController.login proper: 401 "Invalid credentials" when the user is
missing or the hash does not match, 200 with a token otherwise. -/
def loginCore (users : List User) (username password : String) : Nat :=
  match users.find? (fun u => u.username = username) with
  | none => 401
  | some user => if bcompare password user.password then 200 else 401

/-- changePassword route middleware followed by
authController.changePassword.  The middleware rejects missing fields, bad
new-password length, and `currentPassword === newPassword` — all before the
controller looks up the user or compares hashes. -/
def changePasswordEndpoint (st : List User) (username currentPassword newPassword : String) :
    Nat × List User :=
  if currentPassword = "" ∨ newPassword = "" then (400, st)
  else if newPassword.length < 6 ∨ 100 < newPassword.length then (400, st)
  else if currentPassword = newPassword then (400, st)
  else
    match st.find? (fun u => u.username = username) with
    | none => (404, st)
    | some user =>
      if !bcompare currentPassword user.password then (401, st)
      else if newPassword.length < 6 then (400, st)
      else
        (200, st.map (fun u =>
          if u.username = username then { u with password := bhash newPassword } else u))

/- ------------------------------------------------------------------ -/
/- Checkout orchestrator (controllers/paymentController.js)           -/
/- ------------------------------------------------------------------ -/

/-- Result of paymentController.createCheckoutSession.  `sessionCreated`
records whether control reached the `stripe.checkout.sessions.create` call;
on every 400 path it did not.  `validItems` are the retained (possibly
clamped) lines that become Stripe line items; `issues` the advisory
messages collected during the partition loop. -/
structure CheckoutResult where
  status : Nat
  sessionCreated : Bool
  validItems : List CartLine
  issues : List String
deriving DecidableEq, Repr

/-- The partition loop of createCheckoutSession, processing lines in cart
order: missing product → advisory only; stock < quantity and stock = 0 →
advisory only (line dropped); stock < quantity and stock ≠ 0 → quantity
clamped to stock, line retained, advisory; otherwise retained unchanged. -/
def partitionItems (ps : List Product) : List CartLine → List CartLine × List String
  | [] => ([], [])
  | item :: rest =>
    let r := partitionItems ps rest
    match findProduct ps item.productId with
    | none => (r.1, "Product not found for cart item" :: r.2)
    | some p =>
      if p.stock < item.quantity then
        if p.stock = 0 then (r.1, (p.name ++ " is out of stock") :: r.2)
        else ({ item with quantity := p.stock } :: r.1,
              ("Only " ++ toString p.stock ++ " " ++ p.name ++ " available") :: r.2)
      else (item :: r.1, r.2)

/-- paymentController.createCheckoutSession (the Stripe call itself is the
external boundary; reaching it is recorded in `sessionCreated`).  The
handler never writes state, so only the response is returned. -/
def createCheckoutSession (st : State) : CheckoutResult :=
  match st.cart with
  | none => ⟨400, false, [], []⟩
  | some items =>
    if items.isEmpty then ⟨400, false, [], []⟩
    else
      let r := partitionItems st.products items
      if r.1.isEmpty then ⟨400, false, [], r.2⟩
      else ⟨200, true, r.1, r.2⟩

/-- Spec-side restatement of the partition rule of §4.3 step 2, per line:
`none` = dropped, `some` = retained (with the clamped quantity). -/
def retainedLine (ps : List Product) (it : CartLine) : Option CartLine :=
  match findProduct ps it.productId with
  | none => none
  | some p =>
    if p.stock = 0 then none
    else if p.stock < it.quantity then some { it with quantity := p.stock }
    else some it

/-- Spec-side restatement: the advisory messages a single line contributes. -/
def advisoriesFor (ps : List Product) (it : CartLine) : List String :=
  match findProduct ps it.productId with
  | none => ["Product not found for cart item"]
  | some p =>
    if p.stock < it.quantity then
      if p.stock = 0 then [p.name ++ " is out of stock"]
      else ["Only " ++ toString p.stock ++ " " ++ p.name ++ " available"]
    else []

/-- `Product.findByIdAndUpdate(pid, { $inc: { stock: -q } })`. -/
def decStock (ps : List Product) (pid : Nat) (q : Int) : List Product :=
  ps.map (fun p => if p.pid = pid then { p with stock := p.stock - q } else p)

/-- Result of paymentController.handlePaymentSuccess. -/
structure PaymentResult where
  status : Nat
  st : State
  orderId : Option String
deriving DecidableEq, Repr

/-- The stock-update loop of handlePaymentSuccess: `item.product` and
`item.product.stock` come from the cart populated at callback time (the
`snapshot`), while the `$inc` decrement is applied to the live collection
`ps`. -/
def applyStockUpdates (snapshot : List Product) (ps : List Product) :
    List CartLine → List Product
  | [] => ps
  | it :: rest =>
    let ps' := match findProduct snapshot it.productId with
      | some p => if it.quantity ≤ p.stock then decStock ps it.productId it.quantity else ps
      | none => ps
    applyStockUpdates snapshot ps' rest

/-- paymentController.handlePaymentSuccess: after the session is verified
`paid`, the cart is re-loaded (with populated products — the snapshot);
each line whose product exists and whose snapshot stock is ≥ the purchased
quantity has that quantity `$inc`-decremented from live stock, other lines
are skipped; the cart is cleared; the response carries the fabricated order
identifier `'ECO-' + Date.now()` — no Order document is written. -/
def handlePaymentSuccess (st : State) (paid : Bool) (now : Nat) : PaymentResult :=
  if !paid then ⟨400, st, none⟩
  else
    match st.cart with
    | none => ⟨404, st, none⟩
    | some items =>
      ⟨200,
       { st with products := applyStockUpdates st.products st.products items,
                 cart := some [] },
       some ("ECO-" ++ toString now)⟩

/- ------------------------------------------------------------------ -/
/- Product update (controllers/productController.js)                  -/
/- ------------------------------------------------------------------ -/

/-- One entry of the in-memory `accountLockouts` map. -/
structure Lockout where
  attempts : Nat
  lockedUntil : Nat
deriving DecidableEq, Repr

/-- `accountLockouts.get`. -/
def lockGet : List (String × Lockout) → String → Option Lockout
  | [], _ => none
  | (k, v) :: rest, u => if k = u then some v else lockGet rest u

/-- `accountLockouts.set` (keys stay unique). -/
def lockSet : List (String × Lockout) → String → Lockout → List (String × Lockout)
  | [], u, v => [(u, v)]
  | (k, w) :: rest, u, v => if k = u then (u, v) :: rest else (k, w) :: lockSet rest u v

/-- `accountLockouts.delete` (JS Map keys are unique; removing every
binding of the key is the same operation and needs no uniqueness invariant). -/
def lockDel : List (String × Lockout) → String → List (String × Lockout)
  | [], _ => []
  | (k, w) :: rest, u => if k = u then lockDel rest u else (k, w) :: lockDel rest u

/-- State of the login pipeline: user collection, the in-memory lockout
map, and the current wall-clock time (`Date.now()`), which the model holds
fixed across one request. -/
structure AuthState where
  users : List User
  lockouts : List (String × Lockout)
  now : Nat
deriving DecidableEq, Repr

/-- checkAccountLockout's test: an entry exists and `lockedUntil > Date.now()`. -/
def isLockedOut (st : AuthState) (username : String) : Bool :=
  match lockGet st.lockouts username with
  | some info => st.now < info.lockedUntil
  | none => false

/-- trackFailedLogin's response interception: on 401 "Invalid credentials"
(the message loginCore sends with every 401) bump the failure count and set
a 30-minute lock once it reaches 5; on 200 (which always carries a token)
delete the entry; otherwise leave the map alone. -/
def trackFailedLogin (m : List (String × Lockout)) (now : Nat) (username : String)
    (status : Nat) : List (String × Lockout) :=
  if status = 401 then
    let info := (lockGet m username).getD ⟨0, 0⟩
    let bumped : Lockout := { info with attempts := info.attempts + 1 }
    let final : Lockout :=
      if 5 ≤ bumped.attempts then { bumped with lockedUntil := now + 30 * 60 * 1000 }
      else bumped
    lockSet m username final
  else if status = 200 then lockDel m username
  else m

/-- The /login route pipeline: checkAccountLockout → validateAuth →
trackFailedLogin wrapping authController.login.  (loginLimiter is an
external per-IP rate limiter, out of scope per the spec.) -/
def loginEndpoint (st : AuthState) (username password : String) : Nat × AuthState :=
  if isLockedOut st username then (423, st)
  else if !validateAuth username password then (400, st)
  else
    let status := loginCore st.users username password
    (status, { st with lockouts := trackFailedLogin st.lockouts st.now username status })

/-- `n` successive login requests with the same credentials: final state and
the list of response statuses in order. -/
def loginAttempts (st : AuthState) (username password : String) : Nat → AuthState × List Nat
  | 0 => (st, [])
  | n + 1 =>
    let r := loginEndpoint st username password
    let rest := loginAttempts r.2 username password n
    (rest.1, r.1 :: rest.2)

/-- Stock of a product id under a product list, if the product exists. -/
def stockOf (ps : List Product) (pid : Nat) : Option Int :=
  (findProduct ps pid).map (fun p => p.stock)

/-- Concrete fixtures used by witnesses. -/
def exBottle : Product := ⟨1, "Bottle", "Steel bottle", 5, "General", "", 3⟩

def exBag : Product := ⟨2, "Bag", "Tote bag", 2, "General", "", 0⟩

def exProducts : List Product := [exBottle, exBag]

def exState : State := ⟨exProducts, some [⟨10, 1, 2⟩, ⟨11, 2, 1⟩], 12⟩

def exUsers : List User := [⟨"bob1234", bhash "password1", "user"⟩]

/-- A state whose single product has less stock than the single cart line asks. -/
def exLowStock : State := ⟨[⟨1, "Bottle", "Steel bottle", 5, "General", "", 1⟩], some [⟨10, 1, 2⟩], 11⟩

/-- C10: For every change-password request in which the supplied current
password and new password are the same value, the request is rejected with
status 400 before the hash comparison against the stored password and
before any update of the stored password hash, leaving the user record
unchanged.  (The result is `(400, st)` for every user collection `st`, so
the outcome depends on neither the stored hash nor any other user data.) -/
theorem changePassword_same_value_rejected (st : List User) (username pw : String) :
    changePasswordEndpoint st username pw pw = (400, st) := by
  unfold changePasswordEndpoint
  by_cases h0 : pw = ""
  · simp [h0]
  · by_cases hlen : pw.length < 6 ∨ 100 < pw.length
    · simp [h0, hlen]
    · simp [h0, hlen]

/- ------------------------------------------------------------------ -/
/- Helper lemmas                                                      -/
/- ------------------------------------------------------------------ -/

theorem findProduct_map (ps : List Product) (pid : Nat) (f : Product → Product)
    (hf : ∀ q, (f q).pid = q.pid) :
    findProduct (ps.map f) pid = (findProduct ps pid).map f := by
  induction ps with
  | nil => rfl
  | cons p rest ih =>
    by_cases h : p.pid = pid
    · simp [findProduct, List.find?, hf, h]
    · simp only [findProduct, List.map_cons, List.find?]
      rw [hf p, decide_eq_false h]
      exact ih

theorem findProduct_mem_pid (ps : List Product) (pid : Nat) (p : Product)
    (h : findProduct ps pid = some p) : p ∈ ps ∧ p.pid = pid := by
  refine ⟨List.mem_of_find?_eq_some h, ?_⟩
  have := List.find?_some h
  simpa using this

/-- C7: For every checkout-session request where the user's cart is absent
or contains zero lines, the request fails with status 400 and no payment
session is created (the payment-processor session-creation call is never
reached). -/
theorem checkout_empty_cart_rejected (st : State)
    (h : st.cart = none ∨ st.cart = some []) :
    (createCheckoutSession st).status = 400 ∧
    (createCheckoutSession st).sessionCreated = false := by
  rcases h with h | h <;> simp [createCheckoutSession, h]

theorem checkout_empty_cart_rejected_witness :
    (createCheckoutSession ⟨exProducts, some [], 0⟩).status = 400 ∧
    (createCheckoutSession ⟨exProducts, some [], 0⟩).sessionCreated = false :=
  checkout_empty_cart_rejected ⟨exProducts, some [], 0⟩ (Or.inr rfl)

/-- C4: For every register request whose username is not already taken, the
created user's role equals the request body's role field whenever that
field is supplied and truthy (any value, including "admin"), and defaults
to "user" when the role field is absent or falsy — the public register
endpoint imposes no restriction on the role value. -/
theorem register_role_taken_from_body (users : List User) (u p r : String)
    (hv : validateAuth u p = true)
    (hfree : users.find? (fun x => x.username = u) = none) :
    (r ≠ "" → registerEndpoint users u p (some r) = (200, users ++ [⟨u, bhash p, r⟩])) ∧
    registerEndpoint users u p (some "") = (200, users ++ [⟨u, bhash p, "user"⟩]) ∧
    registerEndpoint users u p none = (200, users ++ [⟨u, bhash p, "user"⟩]) :=
  ⟨fun hr => by simp [registerEndpoint, hv, hfree, hr],
   by simp [registerEndpoint, hv, hfree],
   by simp [registerEndpoint, hv, hfree]⟩

theorem register_role_taken_from_body_witness :
    registerEndpoint [] "alice123" "secret1" (some "admin")
      = (200, [⟨"alice123", bhash "secret1", "admin"⟩]) := by
  have h := register_role_taken_from_body [] "alice123" "secret1" "admin"
    (by decide) rfl
  simpa using h.1 (by decide)

/-- C5: For every get-cart request on an existing cart, every line whose
referenced product no longer exists is removed from the returned result,
lines whose products still exist are returned unchanged, and the shrunk
line list is what the stored cart holds afterwards, so a second fetch of
the same cart returns the same (cleaned) list. -/
theorem getCart_spec (st : State) (items : List CartLine)
    (h : st.cart = some items) :
    (getCart st).2
      = items.filter (fun it => (findProduct st.products it.productId).isSome) ∧
    (getCart st).1.cart
      = some (items.filter (fun it => (findProduct st.products it.productId).isSome)) ∧
    (getCart st).1.products = st.products := by
  by_cases hl : (items.filter
      (fun it => (findProduct st.products it.productId).isSome)).length = items.length
  · have hfe : items.filter (fun it => (findProduct st.products it.productId).isSome)
        = items :=
      List.filter_eq_self.mpr (List.filter_length_eq_length.mp hl)
    refine ⟨?_, ?_, ?_⟩ <;> simp [getCart, h, hl, hfe]
  · refine ⟨?_, ?_, ?_⟩ <;> simp [getCart, h, hl]

theorem getCart_lazy_cleanup (st : State) (items : List CartLine)
    (h : st.cart = some items) :
    (getCart st).2
      = items.filter (fun it => (findProduct st.products it.productId).isSome) ∧
    (∀ it ∈ items, findProduct st.products it.productId = none → it ∉ (getCart st).2) ∧
    (∀ it ∈ items, (findProduct st.products it.productId).isSome → it ∈ (getCart st).2) ∧
    (getCart st).1.cart
      = some (items.filter (fun it => (findProduct st.products it.productId).isSome)) ∧
    (getCart st).1.products = st.products ∧
    (getCart (getCart st).1).2 = (getCart st).2 := by
  obtain ⟨b1, b2, b3⟩ := getCart_spec st items h
  refine ⟨b1, ?_, ?_, b2, b3, ?_⟩
  · intro it hmem hnone hin
    rw [b1] at hin
    have := (List.mem_filter.mp hin).2
    simp [hnone] at this
  · intro it hmem hsome
    rw [b1]
    exact List.mem_filter.mpr ⟨hmem, by simpa using hsome⟩
  · obtain ⟨c1, _, _⟩ := getCart_spec (getCart st).1
      (items.filter (fun it => (findProduct st.products it.productId).isSome)) b2
    rw [c1, b3, b1]
    exact List.filter_eq_self.mpr (fun it hin => (List.mem_filter.mp hin).2)

theorem getCart_lazy_cleanup_witness :
    (getCart exLowStock).2 = [⟨10, 1, 2⟩] := by
  have h := getCart_lazy_cleanup exLowStock [⟨10, 1, 2⟩] rfl
  rw [h.1]
  decide

theorem foldl_qty_eq_sum (items : List CartLine) (a : Int) :
    items.foldl (fun sum it => sum + it.quantity) a
      = a + (items.map (fun it => it.quantity)).sum := by
  induction items generalizing a with
  | nil => simp
  | cons it rest ih =>
    simp only [List.foldl_cons, List.map_cons, List.sum_cons, ih]
    ring

theorem foldl_price_eq_sum (ps : List Product) (items : List CartLine) (a : ℚ) :
    items.foldl (fun sum it => sum + linePrice ps it * (it.quantity : ℚ)) a
      = a + (items.map (fun it => linePrice ps it * (it.quantity : ℚ))).sum := by
  induction items generalizing a with
  | nil => simp
  | cons it rest ih =>
    simp only [List.foldl_cons, List.map_cons, List.sum_cons, ih]
    ring

/-- C6: For every cart, the summary's totalPrice equals the sum over lines
whose product exists of the product's price times the line quantity,
rounded to two decimal places as `Math.round(total * 100) / 100`, and
totalItems equals the sum of those lines' quantities; in particular, when
every line's product exists the sums range over all lines, and lines
referencing deleted products are excluded from both sums. -/
theorem cart_summary_totals (st : State) (items : List CartLine)
    (h : st.cart = some items) :
    (getCartSummary st).totalPrice
      = round2 (((items.filter (fun it => (findProduct st.products it.productId).isSome)).map
          (fun it => linePrice st.products it * (it.quantity : ℚ))).sum) ∧
    (getCartSummary st).totalItems
      = ((items.filter (fun it => (findProduct st.products it.productId).isSome)).map
          (fun it => it.quantity)).sum ∧
    ((∀ it ∈ items, (findProduct st.products it.productId).isSome) →
      (getCartSummary st).totalPrice
        = round2 ((items.map (fun it => linePrice st.products it * (it.quantity : ℚ))).sum) ∧
      (getCartSummary st).totalItems = (items.map (fun it => it.quantity)).sum) := by
  have e1 : (getCartSummary st).totalPrice
      = round2 (((items.filter (fun it => (findProduct st.products it.productId).isSome)).map
          (fun it => linePrice st.products it * (it.quantity : ℚ))).sum) := by
    simp [getCartSummary, h, foldl_price_eq_sum]
  have e2 : (getCartSummary st).totalItems
      = ((items.filter (fun it => (findProduct st.products it.productId).isSome)).map
          (fun it => it.quantity)).sum := by
    simp [getCartSummary, h, foldl_qty_eq_sum]
  refine ⟨e1, e2, fun hall => ?_⟩
  have hfe : items.filter (fun it => (findProduct st.products it.productId).isSome)
      = items :=
    List.filter_eq_self.mpr (fun it hin => by simpa using hall it hin)
  rw [e1, e2, hfe]
  exact ⟨rfl, rfl⟩

theorem cart_summary_totals_witness :
    (getCartSummary exState).totalPrice = 12 ∧ (getCartSummary exState).totalItems = 3 := by
  have h := (cart_summary_totals exState [⟨10, 1, 2⟩, ⟨11, 2, 1⟩] rfl).2.2
    (by decide)
  refine ⟨(h.1).trans ?_, (h.2).trans (by decide)⟩
  norm_num [linePrice, findProduct, exProducts, exBottle, exBag, round2, jsRound,
    List.find?]

theorem find?_setLineQty (items : List CartLine) (pid : Nat) (q : Int) (it : CartLine)
    (h : items.find? (fun x => x.productId = pid) = some it) :
    (setLineQty items pid q).find? (fun x => x.productId = pid)
      = some { it with quantity := q } := by
  induction items with
  | nil => simp [List.find?] at h
  | cons y rest ih =>
    by_cases hy : y.productId = pid
    · rw [List.find?_cons_of_pos _ (by simpa using hy)] at h
      cases h
      simp [setLineQty, hy, List.find?_cons_of_pos]
    · rw [List.find?_cons_of_neg _ (by simpa using hy)] at h
      simp only [setLineQty, if_neg hy]
      rw [List.find?_cons_of_neg _ (by simpa using hy)]
      exact ih h

theorem find?_setLineQtyById (items : List CartLine) (lid : Nat) (q : Int) (it : CartLine)
    (h : items.find? (fun x => x.lineId = lid) = some it) :
    (setLineQtyById items lid q).find? (fun x => x.lineId = lid)
      = some { it with quantity := q } := by
  induction items with
  | nil => simp [List.find?] at h
  | cons y rest ih =>
    by_cases hy : y.lineId = lid
    · rw [List.find?_cons_of_pos _ (by simpa using hy)] at h
      cases h
      simp [setLineQtyById, hy, List.find?_cons_of_pos]
    · rw [List.find?_cons_of_neg _ (by simpa using hy)] at h
      simp only [setLineQtyById, if_neg hy]
      rw [List.find?_cons_of_neg _ (by simpa using hy)]
      exact ih h

theorem find?_append_of_none (items : List CartLine) (new : CartLine) (pid : Nat)
    (h : items.find? (fun x => x.productId = pid) = none)
    (hnew : new.productId = pid) :
    (items ++ [new]).find? (fun x => x.productId = pid) = some new := by
  induction items with
  | nil => simp [List.find?_cons_of_pos, hnew]
  | cons y rest ih =>
    by_cases hy : y.productId = pid
    · rw [List.find?_cons_of_pos _ (by simpa using hy)] at h
      cases h
    · rw [List.find?_cons_of_neg _ (by simpa using hy)] at h
      rw [List.cons_append, List.find?_cons_of_neg _ (by simpa using hy)]
      exact ih h

theorem addToCart_fail_frame (st : State) (pid : Nat) (q : Int) :
    (addToCart st pid q).1 ≠ 200 → (addToCart st pid q).2 = st := by
  unfold addToCart
  by_cases h0 : q ≤ 0
  · simp [h0]
  · simp only [if_neg h0]
    cases hfp : findProduct st.products pid with
    | none => simp
    | some product =>
      by_cases h1 : product.stock < q
      · simp [h1]
      · simp only [if_neg h1]
        cases hline : (st.cart.getD []).find? (fun it => it.productId = pid) with
        | none => simp
        | some it =>
          by_cases h2 : product.stock < it.quantity + q
          · simp [h2]
          · simp [h2]

theorem addToCart_overstock_400 (st : State) (pid : Nat) (q : Int) (p : Product)
    (hp : findProduct st.products pid = some p)
    (hover : p.stock < q + (lineQty st pid).getD 0) :
    (addToCart st pid q).1 = 400 := by
  unfold addToCart
  by_cases h0 : q ≤ 0
  · simp [h0]
  · simp only [if_neg h0, hp]
    by_cases h1 : p.stock < q
    · simp [h1]
    · simp only [if_neg h1]
      cases hline : (st.cart.getD []).find? (fun it => it.productId = pid) with
      | none =>
        exfalso
        have hq : (lineQty st pid) = none := by simp [lineQty, hline]
        rw [hq] at hover
        simp at hover
        omega
      | some it =>
        have hq : (lineQty st pid).getD 0 = it.quantity := by simp [lineQty, hline]
        rw [hq] at hover
        have h2 : p.stock < it.quantity + q := by omega
        simp [h2]

theorem addToCart_success_bound (st : State) (pid : Nat) (q : Int) (p : Product)
    (hp : findProduct st.products pid = some p)
    (h200 : (addToCart st pid q).1 = 200) :
    ∀ v, lineQty (addToCart st pid q).2 pid = some v → v ≤ p.stock := by
  unfold addToCart at h200 ⊢
  by_cases h0 : q ≤ 0
  · simp [h0] at h200
  · simp only [if_neg h0, hp] at h200 ⊢
    by_cases h1 : p.stock < q
    · simp [h1] at h200
    · simp only [if_neg h1] at h200 ⊢
      cases hline : (st.cart.getD []).find? (fun it => it.productId = pid) with
      | some it =>
        simp only [hline] at h200 ⊢
        by_cases h2 : p.stock < it.quantity + q
        · simp [h2] at h200
        · simp only [if_neg h2]
          intro v hv
          simp only [lineQty, Option.getD_some] at hv
          rw [find?_setLineQty (st.cart.getD []) pid (it.quantity + q) it hline] at hv
          simp at hv
          omega
      | none =>
        simp only [hline] at h200 ⊢
        intro v hv
        simp only [lineQty, Option.getD_some] at hv
        rw [find?_append_of_none (st.cart.getD []) ⟨st.nextLineId, pid, q⟩ pid hline rfl] at hv
        simp at hv
        omega

theorem updateCartItem_fail_frame (st : State) (lid : Nat) (nq : Int) :
    (updateCartItem st lid nq).1 ≠ 200 → (updateCartItem st lid nq).2 = st := by
  unfold updateCartItem
  by_cases h0 : nq < 1
  · simp [h0]
  · simp only [if_neg h0]
    cases hc : st.cart with
    | none => simp
    | some items =>
      cases hfind : items.find? (fun it => it.lineId = lid) with
      | none => simp [hfind]
      | some it =>
        cases hfp : findProduct st.products it.productId with
        | none => simp [hfind, hfp]
        | some product =>
          by_cases hs : product.stock < nq
          · simp [hfind, hfp, hs]
          · simp [hfind, hfp, hs]

theorem updateCartItem_reject_400 (st : State) (lid : Nat) (nq : Int)
    (it : CartLine) (p : Product)
    (hit : cartLineById st lid = some it)
    (hp : findProduct st.products it.productId = some p)
    (hcond : nq < 1 ∨ p.stock < nq) :
    (updateCartItem st lid nq).1 = 400 := by
  by_cases h0 : nq < 1
  · simp [updateCartItem, h0]
  · have hs : p.stock < nq := hcond.resolve_left h0
    cases hc : st.cart with
    | none =>
      simp [cartLineById, hc] at hit
    | some items =>
      have hfind : items.find? (fun x => x.lineId = lid) = some it := by
        simpa [cartLineById, hc] using hit
      simp [updateCartItem, h0, hc, hfind, hp, hs]

theorem updateCartItem_success (st : State) (lid : Nat) (nq : Int)
    (h200 : (updateCartItem st lid nq).1 = 200) :
    ∃ it p, cartLineById st lid = some it ∧
      findProduct st.products it.productId = some p ∧
      1 ≤ nq ∧ nq ≤ p.stock ∧
      cartLineById (updateCartItem st lid nq).2 lid = some { it with quantity := nq } := by
  by_cases h0 : nq < 1
  · simp [updateCartItem, h0] at h200
  · cases hc : st.cart with
    | none => simp [updateCartItem, h0, hc] at h200
    | some items =>
      cases hfind : items.find? (fun x => x.lineId = lid) with
      | none => simp [updateCartItem, h0, hc, hfind] at h200
      | some it =>
        cases hfp : findProduct st.products it.productId with
        | none => simp [updateCartItem, h0, hc, hfind, hfp] at h200
        | some p =>
          by_cases hs : p.stock < nq
          · simp [updateCartItem, h0, hc, hfind, hfp, hs] at h200
          · have e : updateCartItem st lid nq
                = (200, { st with cart := some (setLineQtyById items lid nq) }) := by
              simp [updateCartItem, h0, hc, hfind, hfp, hs]
            refine ⟨it, p, by simp [cartLineById, hc, hfind], hfp, by omega, by omega, ?_⟩
            rw [e]
            simp only [cartLineById, Option.getD_some]
            exact find?_setLineQtyById items lid nq it hfind

/-- C1: For every add-to-cart and update-line-quantity operation, the
quantity stored in the cart line for a product never exceeds that product's
stock as read at the time of the operation's check: add-to-cart returns 400
when the requested quantity plus any existing line's quantity exceeds
current stock, update-line-quantity returns 400 when the new quantity
exceeds current stock or is below 1, every failure leaves the cart
unchanged, and every success leaves the affected line's quantity within
stock. -/
theorem cart_quantity_stock_invariant (st : State) (pid lid : Nat) (q nq : Int) :
    ((addToCart st pid q).1 ≠ 200 → (addToCart st pid q).2 = st) ∧
    (∀ p, findProduct st.products pid = some p →
       p.stock < q + (lineQty st pid).getD 0 → (addToCart st pid q).1 = 400) ∧
    (∀ p, findProduct st.products pid = some p → (addToCart st pid q).1 = 200 →
       ∀ v, lineQty (addToCart st pid q).2 pid = some v → v ≤ p.stock) ∧
    ((updateCartItem st lid nq).1 ≠ 200 → (updateCartItem st lid nq).2 = st) ∧
    (∀ it p, cartLineById st lid = some it →
       findProduct st.products it.productId = some p →
       (nq < 1 ∨ p.stock < nq) → (updateCartItem st lid nq).1 = 400) ∧
    ((updateCartItem st lid nq).1 = 200 →
       ∃ it p, cartLineById st lid = some it ∧
         findProduct st.products it.productId = some p ∧
         1 ≤ nq ∧ nq ≤ p.stock ∧
         cartLineById (updateCartItem st lid nq).2 lid = some { it with quantity := nq }) :=
  ⟨addToCart_fail_frame st pid q,
   fun p hp hover => addToCart_overstock_400 st pid q p hp hover,
   fun p hp h200 => addToCart_success_bound st pid q p hp h200,
   updateCartItem_fail_frame st lid nq,
   fun it p hit hp hcond => updateCartItem_reject_400 st lid nq it p hit hp hcond,
   updateCartItem_success st lid nq⟩

theorem cart_quantity_stock_invariant_witness :
    (addToCart exState 1 5).1 = 400 ∧ (addToCart exState 1 5).2 = exState := by
  have h := cart_quantity_stock_invariant exState 1 10 5 1
  have h400 : (addToCart exState 1 5).1 = 400 := h.2.1 exBottle (by decide) (by decide)
  exact ⟨h400, h.1 (by rw [h400]; decide)⟩

theorem partitionItems_eq (ps : List Product) (items : List CartLine)
    (hq : ∀ it ∈ items, 1 ≤ it.quantity) :
    partitionItems ps items
      = (items.filterMap (retainedLine ps), (items.map (advisoriesFor ps)).flatten) := by
  induction items with
  | nil => rfl
  | cons item rest ih =>
    have hr := ih (fun it h => hq it (List.mem_cons_of_mem _ h))
    have h1 : (1 : Int) ≤ item.quantity := hq item (List.mem_cons_self _ _)
    simp only [partitionItems, hr]
    cases hfp : findProduct ps item.productId with
    | none => simp [retainedLine, advisoriesFor, hfp]
    | some p =>
      by_cases hs : p.stock < item.quantity
      · by_cases h0 : p.stock = 0
        · have hpos : (0 : Int) < item.quantity := by omega
          simp [retainedLine, advisoriesFor, hfp, hs, h0, hpos]
        · simp [retainedLine, advisoriesFor, hfp, hs, h0]
      · have h0 : ¬p.stock = 0 := by omega
        simp [retainedLine, advisoriesFor, hfp, hs, h0]

/-- C2: For every checkout-session request on a non-empty cart, the
orchestrator partitions the joined lines: a line whose product stock is
greater than 0 but less than the requested quantity is clamped down to the
available stock with an advisory recorded; a line whose product stock is 0
is dropped with an advisory recorded; a line with sufficient stock is
retained unchanged; and if every line is dropped the request fails with 400
carrying the collected advisories (and the session call is not reached). -/
theorem checkout_partition (st : State) (items : List CartLine)
    (hc : st.cart = some items) (hne : items ≠ [])
    (hq : ∀ it ∈ items, 1 ≤ it.quantity) :
    (∀ it ∈ items, ∀ p, findProduct st.products it.productId = some p →
       (p.stock = 0 → retainedLine st.products it = none ∧ advisoriesFor st.products it = [p.name ++ " is out of stock"]) ∧
       (0 < p.stock → p.stock < it.quantity →
          retainedLine st.products it = some { it with quantity := p.stock } ∧
          advisoriesFor st.products it = ["Only " ++ toString p.stock ++ " " ++ p.name ++ " available"]) ∧
       (it.quantity ≤ p.stock →
          retainedLine st.products it = some it ∧ advisoriesFor st.products it = [])) ∧
    (items.filterMap (retainedLine st.products) ≠ [] →
       createCheckoutSession st
         = ⟨200, true, items.filterMap (retainedLine st.products),
            (items.map (advisoriesFor st.products)).flatten⟩) ∧
    (items.filterMap (retainedLine st.products) = [] →
       createCheckoutSession st
         = ⟨400, false, [], (items.map (advisoriesFor st.products)).flatten⟩) := by
  have hpart := partitionItems_eq st.products items hq
  refine ⟨?_, ?_, ?_⟩
  · intro it hin p hp
    have h1 := hq it hin
    refine ⟨fun h0 => ?_, fun hpos hs => ?_, fun hle => ?_⟩
    · have hs : p.stock < it.quantity := by omega
      have hpos : (0 : Int) < it.quantity := by omega
      exact ⟨by simp [retainedLine, hp, h0], by simp [advisoriesFor, hp, hs, h0, hpos]⟩
    · have h0 : ¬p.stock = 0 := by omega
      exact ⟨by simp [retainedLine, hp, hs, h0], by simp [advisoriesFor, hp, hs, h0]⟩
    · have hs : ¬p.stock < it.quantity := by omega
      have h0 : ¬p.stock = 0 := by omega
      exact ⟨by simp [retainedLine, hp, hs, h0], by simp [advisoriesFor, hp, hs]⟩
  · intro hne2
    simp [createCheckoutSession, hc, hne, hpart, hne2]
  · intro he
    simp [createCheckoutSession, hc, hne, hpart, he]

theorem checkout_partition_witness :
    createCheckoutSession exState = ⟨200, true, [⟨10, 1, 2⟩], ["Bag is out of stock"]⟩ := by
  have h := (checkout_partition exState [⟨10, 1, 2⟩, ⟨11, 2, 1⟩] rfl (by decide)
    (by decide)).2.1 (by decide)
  exact h.trans (by decide)

theorem stockOf_decStock_self (ps : List Product) (pid : Nat) (q : Int) :
    stockOf (decStock ps pid q) pid = (stockOf ps pid).map (fun s => s - q) := by
  have hf : ∀ p : Product,
      ((fun p => if p.pid = pid then { p with stock := p.stock - q } else p) p).pid
        = p.pid := by
    intro p; by_cases h : p.pid = pid <;> simp [h]
  unfold stockOf decStock
  rw [findProduct_map ps pid _ hf]
  cases hfp : findProduct ps pid with
  | none => rfl
  | some p =>
    have hpid : p.pid = pid := (findProduct_mem_pid ps pid p hfp).2
    simp [hpid]

theorem stockOf_decStock_other (ps : List Product) (pid pid2 : Nat) (q : Int)
    (h : pid2 ≠ pid) :
    stockOf (decStock ps pid q) pid2 = stockOf ps pid2 := by
  have hf : ∀ p : Product,
      ((fun p => if p.pid = pid then { p with stock := p.stock - q } else p) p).pid
        = p.pid := by
    intro p; by_cases hp : p.pid = pid <;> simp [hp]
  unfold stockOf decStock
  rw [findProduct_map ps pid2 _ hf]
  cases hfp : findProduct ps pid2 with
  | none => rfl
  | some p =>
    have hpid : p.pid = pid2 := (findProduct_mem_pid ps pid2 p hfp).2
    simp [hpid, h]

theorem applyStockUpdates_frame (snapshot : List Product) :
    ∀ (items : List CartLine) (ps : List Product) (pid : Nat),
      pid ∉ items.map (fun it => it.productId) →
      stockOf (applyStockUpdates snapshot ps items) pid = stockOf ps pid := by
  intro items
  induction items with
  | nil => intro ps pid _; rfl
  | cons it rest ih =>
    intro ps pid h
    have hne : it.productId ≠ pid := by
      intro he; exact h (by simp [he])
    have hrest : pid ∉ rest.map (fun x => x.productId) := fun hm => h (by simp [hm])
    simp only [applyStockUpdates]
    cases hfp : findProduct snapshot it.productId with
    | none => simp only [hfp]; exact ih ps pid hrest
    | some p =>
      by_cases hq : it.quantity ≤ p.stock
      · simp only [hfp, if_pos hq]
        rw [ih _ pid hrest]
        exact stockOf_decStock_other ps it.productId pid it.quantity (Ne.symm hne)
      · simp only [hfp, if_neg hq]
        exact ih ps pid hrest

theorem applyStockUpdates_stockOf (snapshot : List Product) :
    ∀ (items : List CartLine) (ps : List Product),
      (items.map (fun it => it.productId)).Nodup →
      ∀ it ∈ items,
        stockOf (applyStockUpdates snapshot ps items) it.productId
          = match findProduct snapshot it.productId with
            | none => stockOf ps it.productId
            | some p =>
              if it.quantity ≤ p.stock
              then (stockOf ps it.productId).map (fun s => s - it.quantity)
              else stockOf ps it.productId := by
  intro items
  induction items with
  | nil => intro ps _ it hin; cases hin
  | cons hd rest ih =>
    intro ps hnodup it hin
    have hpair : (∀ x ∈ rest, ¬x.productId = hd.productId) ∧
        (rest.map (fun x => x.productId)).Nodup := by simpa using hnodup
    have hnd1 : hd.productId ∉ rest.map (fun x => x.productId) := by
      intro hm
      obtain ⟨x, hx, hxe⟩ := List.mem_map.mp hm
      exact hpair.1 x hx hxe
    have hnd2 : (rest.map (fun x => x.productId)).Nodup := hpair.2
    rcases List.mem_cons.mp hin with he | hr
    · subst he
      simp only [applyStockUpdates]
      cases hfp : findProduct snapshot it.productId with
      | none =>
        simp only [hfp]
        exact applyStockUpdates_frame snapshot rest ps it.productId hnd1
      | some p =>
        by_cases hq : it.quantity ≤ p.stock
        · simp only [hfp, if_pos hq]
          rw [applyStockUpdates_frame snapshot rest _ it.productId hnd1]
          exact stockOf_decStock_self ps it.productId it.quantity
        · simp only [hfp, if_neg hq]
          exact applyStockUpdates_frame snapshot rest ps it.productId hnd1
    · have hne : hd.productId ≠ it.productId := by
        intro he
        exact hnd1 (he ▸ List.mem_map.mpr ⟨it, hr, rfl⟩)
      simp only [applyStockUpdates]
      cases hfp : findProduct snapshot hd.productId with
      | none =>
        simp only [hfp]
        exact ih ps hnd2 it hr
      | some p =>
        by_cases hq : hd.quantity ≤ p.stock
        · simp only [hfp, if_pos hq]
          have hother := stockOf_decStock_other ps hd.productId it.productId hd.quantity
            (Ne.symm hne)
          rw [ih (decStock ps hd.productId hd.quantity) hnd2 it hr, hother]
        · simp only [hfp, if_neg hq]
          exact ih ps hnd2 it hr

/-- C3 counterexample: with one product of stock 1 and a paid session whose
cart asks for quantity 2, handlePaymentSuccess leaves the stock at 1 — it
does NOT decrement by the purchased quantity (which would give -1), because
the handler re-checks `item.product.stock >= item.quantity` before the
decrement. -/
theorem payment_no_floor_check_counterexample :
    stockOf (handlePaymentSuccess exLowStock true 0).st.products 1 = some 1 ∧
    ¬stockOf (handlePaymentSuccess exLowStock true 0).st.products 1 = some (1 - 2) := by
  constructor <;> decide

/-- C3 (amended): On the payment-success callback, after the paid check and
cart re-load, the handler decrements a product's stock by the purchased
quantity only when the product still exists and its stock as re-read at
callback time is at least that quantity; a line failing this floor check is
skipped with no stock change, so (for carts with at most one line per
product) stock cannot become negative through this handler; products not in
the cart are untouched, the cart is cleared, and a fabricated
(non-persisted) order identifier is returned. -/
theorem payment_success_guarded_decrement (st : State) (items : List CartLine) (now : Nat)
    (hc : st.cart = some items)
    (hnodup : (items.map (fun it => it.productId)).Nodup) :
    (handlePaymentSuccess st true now).status = 200 ∧
    (handlePaymentSuccess st true now).st.cart = some [] ∧
    (handlePaymentSuccess st true now).orderId = some ("ECO-" ++ toString now) ∧
    (∀ it ∈ items, ∀ p, findProduct st.products it.productId = some p →
       p.stock < it.quantity →
       stockOf (handlePaymentSuccess st true now).st.products it.productId
         = some p.stock) ∧
    (∀ it ∈ items, ∀ p, findProduct st.products it.productId = some p →
       it.quantity ≤ p.stock →
       stockOf (handlePaymentSuccess st true now).st.products it.productId
         = some (p.stock - it.quantity)) ∧
    (∀ pid, pid ∉ items.map (fun it => it.productId) →
       stockOf (handlePaymentSuccess st true now).st.products pid
         = stockOf st.products pid) ∧
    ((∀ p ∈ st.products, 0 ≤ p.stock) →
       ∀ pid s, stockOf (handlePaymentSuccess st true now).st.products pid = some s →
         0 ≤ s) := by
  have e : handlePaymentSuccess st true now
      = ⟨200, { st with products := applyStockUpdates st.products st.products items,
                        cart := some [] },
         some ("ECO-" ++ toString now)⟩ := by
    simp [handlePaymentSuccess, hc]
  refine ⟨by rw [e], by rw [e], by rw [e], ?_, ?_, ?_, ?_⟩
  · intro it hin p hp hlt
    rw [e]
    have h := applyStockUpdates_stockOf st.products items st.products hnodup it hin
    rw [h]
    simp [hp, show ¬it.quantity ≤ p.stock by omega, stockOf]
  · intro it hin p hp hle
    rw [e]
    have h := applyStockUpdates_stockOf st.products items st.products hnodup it hin
    rw [h]
    simp [hp, hle, stockOf]
  · intro pid hnot
    rw [e]
    exact applyStockUpdates_frame st.products items st.products pid hnot
  · intro hpos pid s hs
    rw [e] at hs
    by_cases hpid : pid ∈ items.map (fun it => it.productId)
    · obtain ⟨it, hit, hpe⟩ := List.mem_map.mp hpid
      have h := applyStockUpdates_stockOf st.products items st.products hnodup it hit
      rw [hpe] at h
      rw [h] at hs
      cases hfp : findProduct st.products pid with
      | none => rw [hfp] at hs; simp [stockOf, hfp] at hs
      | some p =>
        have hmem : p ∈ st.products := (findProduct_mem_pid st.products pid p hfp).1
        have hstock0 : 0 ≤ p.stock := hpos p hmem
        simp only [hfp] at hs
        by_cases hq : it.quantity ≤ p.stock
        · rw [if_pos hq] at hs
          simp [stockOf, hfp] at hs
          omega
        · rw [if_neg hq] at hs
          simp [stockOf, hfp] at hs
          omega
    · rw [applyStockUpdates_frame st.products items st.products pid hpid] at hs
      cases hfp : findProduct st.products pid with
      | none => simp [stockOf, hfp] at hs
      | some p =>
        have hmem : p ∈ st.products := (findProduct_mem_pid st.products pid p hfp).1
        have := hpos p hmem
        simp [stockOf, hfp] at hs
        omega

theorem payment_success_guarded_decrement_witness :
    (handlePaymentSuccess exLowStock true 0).status = 200 ∧
    (handlePaymentSuccess exLowStock true 0).st.cart = some [] := by
  have h := payment_success_guarded_decrement exLowStock [⟨10, 1, 2⟩] 0 rfl (by decide)
  exact ⟨h.1, h.2.1⟩

theorem lockGet_lockSet (m : List (String × Lockout)) (u : String) (v : Lockout) :
    lockGet (lockSet m u v) u = some v := by
  induction m with
  | nil => simp [lockSet, lockGet]
  | cons kv rest ih =>
    obtain ⟨k, w⟩ := kv
    by_cases h : k = u
    · simp [lockSet, lockGet, h]
    · simp [lockSet, lockGet, h, ih]

theorem lockGet_lockDel (m : List (String × Lockout)) (u : String) :
    lockGet (lockDel m u) u = none := by
  induction m with
  | nil => rfl
  | cons kv rest ih =>
    obtain ⟨k, w⟩ := kv
    by_cases h : k = u
    · simp [lockDel, h, ih]
    · simp [lockDel, lockGet, h, ih]

theorem loginAttempts_succ (st : AuthState) (u p : String) (n : Nat) :
    loginAttempts st u p (n + 1)
      = ((loginAttempts (loginEndpoint st u p).2 u p n).1,
         (loginEndpoint st u p).1 :: (loginAttempts (loginEndpoint st u p).2 u p n).2) := rfl

theorem loginEndpoint_fail_first (users : List User) (m : List (String × Lockout))
    (now : Nat) (u p : String)
    (hv : validateAuth u p = true)
    (hcore : loginCore users u p = 401)
    (hget : lockGet m u = none) :
    loginEndpoint ⟨users, m, now⟩ u p = (401, ⟨users, lockSet m u ⟨1, 0⟩, now⟩) := by
  simp [loginEndpoint, isLockedOut, hget, hv, hcore, trackFailedLogin]

theorem loginEndpoint_fail_step (users : List User) (m : List (String × Lockout))
    (now : Nat) (u p : String) (i : Nat)
    (hv : validateAuth u p = true)
    (hcore : loginCore users u p = 401)
    (hget : lockGet m u = some ⟨i, 0⟩)
    (hi : i + 1 < 5) :
    loginEndpoint ⟨users, m, now⟩ u p
      = (401, ⟨users, lockSet m u ⟨i + 1, 0⟩, now⟩) := by
  have h5 : ¬5 ≤ i + 1 := by omega
  simp [loginEndpoint, isLockedOut, hget, hv, hcore, trackFailedLogin, h5]

theorem loginEndpoint_fail_lock (users : List User) (m : List (String × Lockout))
    (now : Nat) (u p : String)
    (hv : validateAuth u p = true)
    (hcore : loginCore users u p = 401)
    (hget : lockGet m u = some ⟨4, 0⟩) :
    loginEndpoint ⟨users, m, now⟩ u p
      = (401, ⟨users, lockSet m u ⟨5, now + 30 * 60 * 1000⟩, now⟩) := by
  simp [loginEndpoint, isLockedOut, hget, hv, hcore, trackFailedLogin]

theorem loginEndpoint_locked (st : AuthState) (u p : String)
    (h : isLockedOut st u = true) :
    loginEndpoint st u p = (423, st) := by
  simp [loginEndpoint, h]

theorem loginEndpoint_success_clears (st : AuthState) (u p : String)
    (hn : isLockedOut st u = false)
    (hv : validateAuth u p = true)
    (hcore : loginCore st.users u p = 200) :
    loginEndpoint st u p = (200, { st with lockouts := lockDel st.lockouts u }) ∧
    lockGet (loginEndpoint st u p).2.lockouts u = none := by
  have e : loginEndpoint st u p = (200, { st with lockouts := lockDel st.lockouts u }) := by
    simp [loginEndpoint, hn, hv, hcore, trackFailedLogin]
  exact ⟨e, by rw [e]; exact lockGet_lockDel st.lockouts u⟩

/-- C9: For a username with no lockout entry, 5 consecutive failed login
attempts (valid input, existing user, wrong password) are each answered 401
and leave the in-memory map marking the account locked; any attempt for a
locked username is answered 423 with the state unchanged — before
credentials are checked, since the response is 423 whatever the password;
and a successful login deletes the username's failure entry. -/
theorem login_lockout_after_five_failures (users : List User)
    (m0 : List (String × Lockout)) (now : Nat) (u p : String) (usr : User)
    (hv : validateAuth u p = true)
    (hu : users.find? (fun x => x.username = u) = some usr)
    (hw : bcompare p usr.password = false)
    (hm : lockGet m0 u = none) :
    (loginAttempts ⟨users, m0, now⟩ u p 5).2 = [401, 401, 401, 401, 401] ∧
    isLockedOut (loginAttempts ⟨users, m0, now⟩ u p 5).1 u = true ∧
    (∀ (st2 : AuthState) (p2 : String), isLockedOut st2 u = true →
       loginEndpoint st2 u p2 = (423, st2)) ∧
    (∀ (st3 : AuthState) (p3 : String), isLockedOut st3 u = false →
       validateAuth u p3 = true → loginCore st3.users u p3 = 200 →
       (loginEndpoint st3 u p3).1 = 200 ∧
       lockGet (loginEndpoint st3 u p3).2.lockouts u = none) := by
  have hcore : loginCore users u p = 401 := by simp [loginCore, hu, hw]
  have e1 := loginEndpoint_fail_first users m0 now u p hv hcore hm
  have e2 := loginEndpoint_fail_step users (lockSet m0 u ⟨1, 0⟩) now u p 1 hv hcore
    (lockGet_lockSet _ _ _) (by omega)
  have e3 := loginEndpoint_fail_step users (lockSet (lockSet m0 u ⟨1, 0⟩) u ⟨2, 0⟩)
    now u p 2 hv hcore (lockGet_lockSet _ _ _) (by omega)
  have e4 := loginEndpoint_fail_step users
    (lockSet (lockSet (lockSet m0 u ⟨1, 0⟩) u ⟨2, 0⟩) u ⟨3, 0⟩)
    now u p 3 hv hcore (lockGet_lockSet _ _ _) (by omega)
  have e5 := loginEndpoint_fail_lock users
    (lockSet (lockSet (lockSet (lockSet m0 u ⟨1, 0⟩) u ⟨2, 0⟩) u ⟨3, 0⟩) u ⟨4, 0⟩)
    now u p hv hcore (lockGet_lockSet _ _ _)
  have A : loginAttempts ⟨users, m0, now⟩ u p 5
      = (⟨users,
          lockSet (lockSet (lockSet (lockSet (lockSet m0 u ⟨1, 0⟩) u ⟨2, 0⟩) u ⟨3, 0⟩)
            u ⟨4, 0⟩) u ⟨5, now + 30 * 60 * 1000⟩, now⟩,
         [401, 401, 401, 401, 401]) := by
    simp [loginAttempts, loginAttempts_succ, e1, e2, e3, e4, e5]
  refine ⟨by rw [A], ?_, ?_, ?_⟩
  · rw [A]
    simp only [isLockedOut, lockGet_lockSet]
    simp
  · intro st2 p2 h
    exact loginEndpoint_locked st2 u p2 h
  · intro st3 p3 hn hv3 hcore3
    have h := loginEndpoint_success_clears st3 u p3 hn hv3 hcore3
    exact ⟨by rw [h.1], h.2⟩

theorem login_lockout_witness :
    (loginAttempts ⟨exUsers, [], 7⟩ "bob1234" "wrongpass1" 5).2
      = [401, 401, 401, 401, 401] :=
  (login_lockout_after_five_failures exUsers [] 7 "bob1234" "wrongpass1"
    ⟨"bob1234", bhash "password1", "user"⟩ (by decide) (by decide) (by decide) rfl).1
